import Mathlib

/-!
Shallow embedding of the `exclusion-mutuelle` mutex runner (src/unnamed/part_001,
`exports.initialize(...).run`) together with its error classes
(src/unnamed/part_000 `ExtendLockError`, src/src/errors `UnlockError`).

The effectful JavaScript code is modelled as a pure function from the
behaviour of its external collaborators (the redlock client's `lock`,
`extend` and `unlock` results, and the user task) to the terminal outcome of
the returned promise plus the ordered trace of observable effects
(acquire / task invocation / setInterval arming / extend calls / cancellation /
clearInterval / unlock calls).  Timing is abstracted to interval ticks: the
task is described by how many interval ticks fire while it is still pending
and by its eventual settled result; Bluebird promise combinators are encoded
by the control flow they produce (in particular, a rejection thrown inside a
`.finally` handler replaces the original outcome of the awaited promise).
-/

namespace ExclusionMutuelle

/-- A JavaScript value as far as the `lockKey` parameter is concerned:
a string, a number (standing for any non-string primitive), or an array. -/
inductive JsVal where
  | str (s : String)
  | num (n : Nat)
  | arr (elems : List JsVal)

/-- `_.isString` from lodash, specialised to the values we model. -/
def isString : JsVal → Bool
  | .str _ => true
  | _ => false

/-- The string payload of a `JsVal` known to be a string. -/
def asString : JsVal → String
  | .str s => s
  | _ => ""

mutual

/-- JavaScript string coercion of a value (template-literal interpolation):
a string is itself, an array joins its elements with commas. -/
def jsValToString : JsVal → String
  | .str s => s
  | .num n => toString n
  | .arr xs => jsValListToString xs

/-- Comma-joined coercion of an array of values, as `Array.prototype.toString`. -/
def jsValListToString : List JsVal → String
  | [] => ""
  | [x] => jsValToString x
  | x :: y :: xs => jsValToString x ++ "," ++ jsValListToString (y :: xs)

end

/-- A JavaScript `Error`-like object: name, message and stack trace. -/
structure JsError where
  name : String
  message : String
  stack : String
deriving Repr, DecidableEq

/-- JavaScript string coercion of an error, as used by template literals. -/
def errToString (e : JsError) : String := e.name ++ ": " ++ e.message

/-- An apostrophe character, used to spell the message templates of the source. -/
def apos : String := String.singleton (Char.ofNat 39)

/-- The rejection message for a too-small TTL:
`TTL must be more than ${minimumTtl} ms!`. -/
def ttlMessage (minimumTtl : Nat) : String :=
  "TTL must be more than " ++ toString minimumTtl ++ " ms!"

/-- The rejection message for a malformed lock key. -/
def shapeMessage : String := "Lock key must be a string or an array of string"

/-- The message stored on the shared `extendLockError` object when the
extension cap is exceeded. -/
def capMessage (keyStr : String) (maxExtendLockCount extendLockCounter : Nat) : String :=
  "[Mutex " ++ keyStr ++ "] Promise is cancelled because it" ++ apos ++
    "s been extended for more than " ++ toString maxExtendLockCount ++
    " (extend count: " ++ toString extendLockCounter ++ ")"

/-- The message of the `UnlockError` raised when releasing fails. -/
def unlockMessage (keyStr : String) (lockTtl : Nat) (e : JsError) : String :=
  "[Mutex " ++ keyStr ++ "] Error when unlocking resource, no worries we" ++ apos ++
    "ve set a TTL " ++ toString lockTtl ++ " ms, it" ++ apos ++
    "ll unlock automatically. Error " ++ errToString e

/-- The stack captured by `Error.captureStackTrace` for a freshly constructed
core error, modelled as an opaque marker string. -/
def capturedStack : String := "captured-stack"

/-- Runner configuration, with the defaults of `exports.initialize`. -/
structure Config where
  minimumTtl : Nat := 100
  extendLockBufferOffset : Nat := 50
  maxExtendLockCount : Nat := 20
deriving Repr, DecidableEq

/-- Behaviour of the external redlock collaborator for one invocation:
the result of `redlock.lock` per key position, of `lock.extend` per
(tick, handle position), and of `lock.unlock` per handle position. -/
structure Env where
  lockResult : Nat → Except JsError Unit
  extendResult : Nat → Nat → Except JsError Unit
  unlockResult : Nat → Except JsError Unit

/-- Behaviour of the user task `f`: it either throws synchronously when
invoked, or runs as a promise that settles after a given number of interval
ticks with the given result (a task that never settles is described by a
tick count larger than any cancellation point). -/
inductive TaskSpec (α : Type) where
  | syncThrow (e : JsError)
  | settles (ticksBeforeSettle : Nat) (result : Except JsError α)

/-- Observable effects of one `run` invocation, in order of occurrence. -/
inductive Event where
  | acquire (key : String)
  | invokeTask
  | arm (periodMs : Int)
  | extendCall (handle : Nat) (ttlMs : Nat)
  | cancelTask
  | disarm
  | release (handle : Nat)
deriving Repr, DecidableEq

/-- Is the event an extension-interval arming (`setInterval`)? -/
def isArm : Event → Bool
  | .arm _ => true
  | _ => false

/-- Is the event a `lock.unlock()` attempt? -/
def isRelease : Event → Bool
  | .release _ => true
  | _ => false

/-- The first rejection among `n` parallel calls (`Bluebird.map` rejects the
combined promise with the error of the call that fails). -/
def firstFailure (result : Nat → Except JsError Unit) (n : Nat) : Option JsError :=
  (List.range n).findSome? (fun i =>
    match result i with
    | .error e => some e
    | .ok _ => none)

/-- The state of the mutable `extendLockError` binding of `run`: initially a
plain empty object, given a `message` when the cap is exceeded, or replaced
wholesale by the extension error when an extend call fails. -/
inductive ExtendErrState where
  | emptyObj
  | capMsg (message : String)
  | fromError (e : JsError)
deriving Repr, DecidableEq

/-- `extendLockError.message` as read by `new ExtendLockError(...)`. -/
def extMessage : ExtendErrState → Option String
  | .emptyObj => none
  | .capMsg m => some m
  | .fromError e => some e.message

/-- `extendLockError.stack || error.stack`: the stack put on the emitted
`ExtendLockError` (a falsy stored stack falls back to the captured one). -/
def extStack : ExtendErrState → String
  | .emptyObj => capturedStack
  | .capMsg _ => capturedStack
  | .fromError e => if e.stack = "" then capturedStack else e.stack

/-- The value of an emitted `UnlockError`: `new UnlockError(message)` sets
`message`, leaves the `extra` constructor parameter undefined, and the code
then overwrites `stack` with the underlying error's stack. -/
structure UnlockErrorVal where
  message : String
  extra : Option JsError
  stack : String
deriving Repr, DecidableEq

/-- The value of an emitted `ExtendLockError`:
`new ExtendLockError(extendLockError.message)` sets `message`, leaves the
`extendLockLimit` constructor parameter undefined, and the code then
overwrites `stack` with `extendLockError.stack || error.stack`. -/
structure ExtendLockErrorVal where
  message : Option String
  extendLockLimit : Option Nat
  stack : String
deriving Repr, DecidableEq

/-- Terminal outcome of the promise returned by `run`. -/
inductive Outcome (α : Type) where
  | ok (v : α)
  | plainError (message : String)
  | lockError (e : JsError)
  | taskError (e : JsError)
  | unlockError (u : UnlockErrorVal)
  | extendLockError (x : ExtendLockErrorVal)
deriving Repr, DecidableEq

/-- Result of the interval simulation: the tick events in order, whether
`deferred.cancel()` was called, and the final `extendLockError` state. -/
structure TickSim where
  events : List Event
  cancelled : Bool
  extState : ExtendErrState
deriving Repr, DecidableEq

/-- One extension round: `Bluebird.map(locks, lock => lock.extend(lockTtl))`
issues an extend call on every handle. -/
def extendRound (n ttl : Nat) : List Event :=
  (List.range n).map (fun h => Event.extendCall h ttl)

/-- `k` successive extension rounds. -/
def extendRounds (n ttl : Nat) : Nat → List Event
  | 0 => []
  | k + 1 => extendRound n ttl ++ extendRounds n ttl k

/-- The `setInterval` callback of `run`, iterated while the task is pending.
`d` is the number of ticks that still fire before the task settles, `c` the
value of `extendLockCounter` so far.  Each tick increments the counter
first; a tick whose incremented counter exceeds the cap cancels the task and
issues no extend call; otherwise every handle is extended in parallel, and
any extension failure cancels the task and stores the error. -/
def runTicks (env : Env) (keyStr : String) (n C ttl : Nat) : Nat → Nat → TickSim
  | 0, _ => ⟨[], false, .emptyObj⟩
  | d + 1, c =>
    if c + 1 > C then
      ⟨[.cancelTask], true, .capMsg (capMessage keyStr C (c + 1))⟩
    else
      match firstFailure (env.extendResult (c + 1)) n with
      | some e => ⟨extendRound n ttl ++ [.cancelTask], true, .fromError e⟩
      | none =>
        let rest := runTicks env keyStr n C ttl d (c + 1)
        ⟨extendRound n ttl ++ rest.events, rest.cancelled, rest.extState⟩

/-- The `.finally` handler's classification of the terminal outcome, after
`clearInterval`: a failed unlock throws an `UnlockError` that replaces any
prior outcome; otherwise a cancelled deferred throws an `ExtendLockError`;
otherwise the task's own settled result passes through. -/
def classify (keyStr : String) (ttl : Nat) (unlockFail : Option JsError)
    (cancelled : Bool) (ext : ExtendErrState) (result : Except JsError α) : Outcome α :=
  match unlockFail with
  | some e => .unlockError ⟨unlockMessage keyStr ttl e, none, e.stack⟩
  | none =>
    if cancelled then
      .extendLockError ⟨extMessage ext, none, extStack ext⟩
    else
      match result with
      | .ok v => .ok v
      | .error e => .taskError e

/-- `lockKeys`: the normalization `_.isArray(lockKey) ? lockKey : [lockKey]`. -/
def normalizeLockKey : JsVal → List JsVal
  | .arr xs => xs
  | v => [v]

/-- Number of lock keys (and hence of handles) of the invocation. -/
def lockKeyCount (lockKey : JsVal) : Nat := (normalizeLockKey lockKey).length

/-- The parallel `redlock.lock` calls, one per key. -/
def acquireEvents (lockKey : JsVal) : List Event :=
  (normalizeLockKey lockKey).map (fun k => Event.acquire (asString k))

/-- The parallel `lock.unlock` calls, one per handle. -/
def releaseEvents (n : Nat) : List Event :=
  (List.range n).map Event.release

/-- The interval simulation of one invocation, started with counter 0. -/
def simOf (cfg : Config) (env : Env) (lockKey : JsVal) (ttl d : Nat) : TickSim :=
  runTicks env (jsValToString lockKey) (lockKeyCount lockKey)
    cfg.maxExtendLockCount ttl d 0

/-- Outcome and effect trace of one `run` invocation. -/
structure RunResult (α : Type) where
  outcome : Outcome α
  events : List Event
deriving Repr, DecidableEq

/-- The `run` operation of the mutex singleton, as a pure function of the
collaborator behaviours.  Mirrors src/unnamed/part_001: TTL validation,
lock-key shape validation, parallel acquisition, task invocation, interval
arming, the tick loop, and the `.finally` handler (clearInterval, parallel
unlock, `UnlockError` on unlock failure, `ExtendLockError` when the deferred
was cancelled, otherwise the task's own outcome). -/
def run (cfg : Config) (env : Env) (task : TaskSpec α) (lockKey : JsVal)
    (lockTtl : Nat) : RunResult α :=
  if lockTtl < cfg.minimumTtl then
    ⟨.plainError (ttlMessage cfg.minimumTtl), []⟩
  else if !(normalizeLockKey lockKey).all isString then
    ⟨.plainError shapeMessage, []⟩
  else
    match firstFailure env.lockResult (lockKeyCount lockKey) with
    | some e => ⟨.lockError e, acquireEvents lockKey⟩
    | none =>
      match task with
      | .syncThrow e => ⟨.taskError e, acquireEvents lockKey ++ [.invokeTask]⟩
      | .settles d result =>
        let sim := simOf cfg env lockKey lockTtl d
        ⟨classify (jsValToString lockKey) lockTtl
            (firstFailure env.unlockResult (lockKeyCount lockKey))
            sim.cancelled sim.extState result,
          acquireEvents lockKey ++
            [.invokeTask, .arm ((lockTtl : Int) - (cfg.extendLockBufferOffset : Int))] ++
            sim.events ++ [.disarm] ++ releaseEvents (lockKeyCount lockKey)⟩

/-- Is the event the `clearInterval` disarm? -/
def isDisarm : Event → Bool
  | .disarm => true
  | _ => false

/-- The default configuration produced by `initialize` with no overrides. -/
def cfgDefault : Config := {}

/-- A configuration whose extension cap is 2, for small concrete scenarios. -/
def cfgCap2 : Config := { maxExtendLockCount := 2 }

/-- A collaborator behaviour where every lock, extend and unlock call succeeds. -/
def envAllOk : Env := ⟨fun _ => .ok (), fun _ _ => .ok (), fun _ => .ok ()⟩

/-- A sample error thrown by the user task. -/
def taskErrSample : JsError := ⟨"Error", "Some random error", "task-stack"⟩

/-- A sample error raised by `lock.unlock()`. -/
def unlockErrSample : JsError := ⟨"Error", "Unlocking error", "unlock-stack"⟩

/-- A sample acquisition error raised by `redlock.lock`. -/
def lockErrSample : JsError := ⟨"LockError", "asd", "lock-stack"⟩

/-- A collaborator behaviour where unlocking fails and everything else succeeds. -/
def envUnlockFails : Env := ⟨fun _ => .ok (), fun _ _ => .ok (), fun _ => .error unlockErrSample⟩

/-- A collaborator behaviour where the first key acquires and the second fails. -/
def envSecondLockFails : Env :=
  ⟨fun i => if i = 0 then .ok () else .error lockErrSample,
    fun _ _ => .ok (), fun _ => .ok ()⟩

lemma run_ttl_invalid (cfg : Config) (env : Env) (task : TaskSpec α) (lockKey : JsVal)
    (lockTtl : Nat) (h : lockTtl < cfg.minimumTtl) :
    run cfg env task lockKey lockTtl = ⟨.plainError (ttlMessage cfg.minimumTtl), []⟩ := by
  unfold run
  rw [if_pos h]

lemma run_badkey (cfg : Config) (env : Env) (task : TaskSpec α) (lockKey : JsVal)
    (lockTtl : Nat) (h1 : ¬ lockTtl < cfg.minimumTtl)
    (h2 : (normalizeLockKey lockKey).all isString = false) :
    run cfg env task lockKey lockTtl = ⟨.plainError shapeMessage, []⟩ := by
  unfold run
  rw [if_neg h1, h2]
  rfl

lemma run_lockfail (cfg : Config) (env : Env) (task : TaskSpec α) (lockKey : JsVal)
    (lockTtl : Nat) (e : JsError) (h1 : ¬ lockTtl < cfg.minimumTtl)
    (h2 : (normalizeLockKey lockKey).all isString = true)
    (h3 : firstFailure env.lockResult (lockKeyCount lockKey) = some e) :
    run cfg env task lockKey lockTtl = ⟨.lockError e, acquireEvents lockKey⟩ := by
  unfold run
  rw [if_neg h1, h2, h3]
  rfl

lemma run_syncThrow_eq {α : Type} (cfg : Config) (env : Env) (e : JsError) (lockKey : JsVal)
    (lockTtl : Nat) (h1 : ¬ lockTtl < cfg.minimumTtl)
    (h2 : (normalizeLockKey lockKey).all isString = true)
    (h3 : firstFailure env.lockResult (lockKeyCount lockKey) = none) :
    run cfg env (TaskSpec.syncThrow e : TaskSpec α) lockKey lockTtl =
      ⟨.taskError e, acquireEvents lockKey ++ [.invokeTask]⟩ := by
  unfold run
  rw [if_neg h1, h2, h3]
  rfl

lemma run_settles_eq (cfg : Config) (env : Env) (lockKey : JsVal)
    (lockTtl d : Nat) (result : Except JsError α) (h1 : ¬ lockTtl < cfg.minimumTtl)
    (h2 : (normalizeLockKey lockKey).all isString = true)
    (h3 : firstFailure env.lockResult (lockKeyCount lockKey) = none) :
    run cfg env (TaskSpec.settles d result) lockKey lockTtl =
      ⟨classify (jsValToString lockKey) lockTtl
          (firstFailure env.unlockResult (lockKeyCount lockKey))
          (simOf cfg env lockKey lockTtl d).cancelled
          (simOf cfg env lockKey lockTtl d).extState result,
        acquireEvents lockKey ++
          [.invokeTask, .arm ((lockTtl : Int) - (cfg.extendLockBufferOffset : Int))] ++
          (simOf cfg env lockKey lockTtl d).events ++ [.disarm] ++
          releaseEvents (lockKeyCount lockKey)⟩ := by
  unfold run
  rw [if_neg h1, h2, h3]
  rfl

lemma mem_extendRound {e : Event} {n ttl : Nat} (h : e ∈ extendRound n ttl) :
    ∃ i, i < n ∧ e = Event.extendCall i ttl := by
  rcases List.mem_map.mp h with ⟨i, hi, rfl⟩
  exact ⟨i, List.mem_range.mp hi, rfl⟩

lemma mem_runTicks (env : Env) (keyStr : String) (n C ttl : Nat) :
    ∀ d c, ∀ e ∈ (runTicks env keyStr n C ttl d c).events,
      e = Event.cancelTask ∨ ∃ i, i < n ∧ e = Event.extendCall i ttl := by
  intro d
  induction d with
  | zero => intro c e he; simp [runTicks] at he
  | succ d ih =>
    intro c e he
    rw [runTicks] at he
    by_cases hC : c + 1 > C
    · rw [if_pos hC] at he
      simp at he
      exact Or.inl he
    · rw [if_neg hC] at he
      cases hfe : firstFailure (env.extendResult (c + 1)) n with
      | some err =>
        rw [hfe] at he
        simp at he
        rcases he with he | he
        · exact Or.inr (mem_extendRound he)
        · exact Or.inl he
      | none =>
        rw [hfe] at he
        simp at he
        rcases he with he | he
        · exact Or.inr (mem_extendRound he)
        · exact ih (c + 1) e he

lemma runTicks_cap (env : Env) (keyStr : String) (n C ttl : Nat) :
    ∀ d c, c ≤ C → C < c + d →
      (∀ t, c < t → t ≤ C → firstFailure (env.extendResult t) n = none) →
      runTicks env keyStr n C ttl d c =
        ⟨extendRounds n ttl (C - c) ++ [Event.cancelTask], true,
          .capMsg (capMessage keyStr C (C + 1))⟩ := by
  intro d
  induction d with
  | zero => intro c hc hlt _; omega
  | succ d ih =>
    intro c hc hlt hext
    rw [runTicks]
    by_cases hC : c + 1 > C
    · have hcC : c = C := by omega
      rw [if_pos hC]
      subst hcC
      simp [extendRounds]
    · rw [if_neg hC]
      rw [hext (c + 1) (by omega) (by omega)]
      rw [ih (c + 1) (by omega) (by omega) (fun t ht1 ht2 => hext t (by omega) ht2)]
      have hsub : C - c = (C - (c + 1)) + 1 := by omega
      simp [hsub, extendRounds]

lemma count_release_range (n h : Nat) :
    (releaseEvents n).count (Event.release h) = if h < n then 1 else 0 := by
  unfold releaseEvents
  rw [List.count_map_of_injective _ Event.release (fun a b hab => Event.release.inj hab) h]
  induction n with
  | zero => simp
  | succ n ih =>
    have hc : List.count h [n] = if h = n then 1 else 0 := by
      by_cases h2 : h = n
      · subst h2; simp
      · rw [if_neg h2, List.count_eq_zero]
        simp
        omega
    rw [List.range_succ, List.count_append, ih, hc]
    by_cases h1 : h < n
    · rw [if_pos h1, if_neg (by omega), if_pos (by omega)]
    · by_cases h2 : h = n
      · rw [if_neg h1, if_pos h2, if_pos (by omega)]
      · rw [if_neg h1, if_neg h2, if_neg (by omega)]

lemma mem_acquireEvents {e : Event} {lockKey : JsVal} (h : e ∈ acquireEvents lockKey) :
    ∃ s, e = Event.acquire s := by
  rcases List.mem_map.mp h with ⟨k, _, rfl⟩
  exact ⟨asString k, rfl⟩

lemma findIdx_append_of_none (p : Event → Bool) (l1 l2 : List Event)
    (h : ∀ e ∈ l1, p e = false) :
    (l1 ++ l2).findIdx p = l1.length + l2.findIdx p := by
  induction l1 with
  | nil => simp
  | cons a l ih =>
    rw [List.cons_append, List.findIdx_cons]
    rw [h a (List.mem_cons_self a l), cond_false]
    rw [ih (fun e he => h e (List.mem_cons_of_mem a he))]
    simp [List.length_cons]
    omega

/-- C6: an invocation with an invalid lockTtl (below minimumTtl) or a malformed
lockKey (neither a string nor a sequence of strings) fails immediately with a
plain validation error and produces no side effect at all: no acquire, no
extend, no release, and the scheduler is never armed (the effect trace is
empty). -/
theorem validation_side_effect_free {α : Type} (cfg : Config) (env : Env)
    (task : TaskSpec α) (lockKey : JsVal) (lockTtl : Nat)
    (h : lockTtl < cfg.minimumTtl ∨ (normalizeLockKey lockKey).all isString = false) :
    run cfg env task lockKey lockTtl =
      ⟨.plainError
          (if lockTtl < cfg.minimumTtl then ttlMessage cfg.minimumTtl else shapeMessage),
        []⟩ := by
  by_cases h1 : lockTtl < cfg.minimumTtl
  · rw [run_ttl_invalid cfg env task lockKey lockTtl h1, if_pos h1]
  · rcases h with h | h2
    · exact absurd h h1
    · rw [run_badkey cfg env task lockKey lockTtl h1 h2, if_neg h1]

/-- C6 witness: the theorem applied to a TTL of 99 against the default minimum
of 100. -/
theorem validation_side_effect_free_witness :
    (99 < cfgDefault.minimumTtl ∨
      (normalizeLockKey (JsVal.str "lock-key")).all isString = false) ∧
    run cfgDefault envAllOk (TaskSpec.settles 0 (Except.ok ())) (JsVal.str "lock-key") 99 =
      ⟨.plainError
          (if 99 < cfgDefault.minimumTtl then ttlMessage cfgDefault.minimumTtl
            else shapeMessage),
        []⟩ :=
  ⟨Or.inl (by decide),
    validation_side_effect_free cfgDefault envAllOk (TaskSpec.settles 0 (Except.ok ()))
      (JsVal.str "lock-key") 99 (Or.inl (by decide))⟩

/-- C9: validation of the TTL is the strict comparison `lockTtl < minimumTtl`:
with lockTtl exactly equal to minimumTtl the invocation passes validation and
lock acquisition is attempted (the trace begins with the acquire calls), even
though the rejection message for smaller values says the TTL must be *more
than* minimumTtl. -/
theorem minimumTtl_boundary {α : Type} (cfg : Config) (env : Env) (task : TaskSpec α)
    (lockKey : JsVal) (ttlSmall : Nat)
    (h2 : (normalizeLockKey lockKey).all isString = true)
    (h5 : ttlSmall < cfg.minimumTtl) :
    (run cfg env task lockKey cfg.minimumTtl).events.take (lockKeyCount lockKey) =
      acquireEvents lockKey ∧
    run cfg env task lockKey ttlSmall = ⟨.plainError (ttlMessage cfg.minimumTtl), []⟩ := by
  have h1 : ¬ cfg.minimumTtl < cfg.minimumTtl := lt_irrefl _
  have hlen : (acquireEvents lockKey).length = lockKeyCount lockKey := by
    simp [acquireEvents, lockKeyCount]
  constructor
  · cases h3 : firstFailure env.lockResult (lockKeyCount lockKey) with
    | some e =>
      rw [run_lockfail cfg env task lockKey _ e h1 h2 h3]
      rw [← hlen, List.take_length]
    | none =>
      cases task with
      | syncThrow e =>
        rw [run_syncThrow_eq cfg env e lockKey _ h1 h2 h3]
        exact List.take_left' hlen
      | settles d result =>
        rw [run_settles_eq cfg env lockKey _ d result h1 h2 h3]
        dsimp only
        rw [List.append_assoc, List.append_assoc, List.append_assoc]
        exact List.take_left' hlen
  · exact run_ttl_invalid cfg env task lockKey ttlSmall h5

/-- C9 witness: the theorem applied at the default minimum TTL of 100. -/
theorem minimumTtl_boundary_witness :
    ((normalizeLockKey (JsVal.str "lock-key")).all isString = true ∧
      99 < cfgDefault.minimumTtl) ∧
    ((run cfgDefault envAllOk (TaskSpec.settles 0 (Except.ok ())) (JsVal.str "lock-key")
          cfgDefault.minimumTtl).events.take (lockKeyCount (JsVal.str "lock-key")) =
        acquireEvents (JsVal.str "lock-key") ∧
      run cfgDefault envAllOk (TaskSpec.settles 0 (Except.ok ())) (JsVal.str "lock-key") 99 =
        ⟨.plainError (ttlMessage cfgDefault.minimumTtl), []⟩) :=
  ⟨⟨by decide, by decide⟩,
    minimumTtl_boundary cfgDefault envAllOk (TaskSpec.settles 0 (Except.ok ()))
      (JsVal.str "lock-key") 99 (by decide) (by decide)⟩

/-- C10: a task callable that throws synchronously when invoked makes run
reject with that exception, but the extension scheduler is never armed and no
release is attempted on any of the already-acquired handles. -/
theorem syncThrow_no_cleanup {α : Type} (cfg : Config) (env : Env) (e : JsError)
    (lockKey : JsVal) (lockTtl : Nat)
    (h1 : ¬ lockTtl < cfg.minimumTtl)
    (h2 : (normalizeLockKey lockKey).all isString = true)
    (h3 : firstFailure env.lockResult (lockKeyCount lockKey) = none) :
    (run cfg env (TaskSpec.syncThrow e : TaskSpec α) lockKey lockTtl).outcome =
      .taskError e ∧
    (run cfg env (TaskSpec.syncThrow e : TaskSpec α) lockKey lockTtl).events.any isArm =
      false ∧
    (run cfg env (TaskSpec.syncThrow e : TaskSpec α) lockKey lockTtl).events.any isRelease =
      false := by
  rw [run_syncThrow_eq cfg env e lockKey lockTtl h1 h2 h3]
  refine ⟨rfl, ?_, ?_⟩ <;>
  · rw [List.any_eq_false]
    intro x hx
    rcases List.mem_append.mp hx with hx | hx
    · rcases mem_acquireEvents hx with ⟨s, rfl⟩
      simp [isArm, isRelease]
    · simp at hx
      subst hx
      simp [isArm, isRelease]

/-- C10 witness: the theorem applied to a synchronously-throwing task after a
successful single-key acquisition. -/
theorem syncThrow_no_cleanup_witness :
    (¬ 1000 < cfgDefault.minimumTtl ∧
      (normalizeLockKey (JsVal.str "lock-key")).all isString = true ∧
      firstFailure envAllOk.lockResult (lockKeyCount (JsVal.str "lock-key")) = none) ∧
    ((run cfgDefault envAllOk (TaskSpec.syncThrow taskErrSample : TaskSpec Unit)
          (JsVal.str "lock-key") 1000).outcome = .taskError taskErrSample ∧
      (run cfgDefault envAllOk (TaskSpec.syncThrow taskErrSample : TaskSpec Unit)
          (JsVal.str "lock-key") 1000).events.any isArm = false ∧
      (run cfgDefault envAllOk (TaskSpec.syncThrow taskErrSample : TaskSpec Unit)
          (JsVal.str "lock-key") 1000).events.any isRelease = false) :=
  ⟨⟨by decide, by decide, rfl⟩,
    syncThrow_no_cleanup cfgDefault envAllOk taskErrSample (JsVal.str "lock-key") 1000
      (by decide) (by decide) rfl⟩

/-- C4: for every invocation that reaches the task (all locks acquired and the
task started as a promise), release is attempted exactly once on every
acquired handle before run returns, regardless of whether the task succeeded,
failed, or was cancelled: the trace counts exactly one release per handle
position below the key count and none elsewhere. -/
theorem release_exactly_once {α : Type} (cfg : Config) (env : Env) (lockKey : JsVal)
    (lockTtl d : Nat) (result : Except JsError α) (h : Nat)
    (h1 : ¬ lockTtl < cfg.minimumTtl)
    (h2 : (normalizeLockKey lockKey).all isString = true)
    (h3 : firstFailure env.lockResult (lockKeyCount lockKey) = none) :
    (run cfg env (TaskSpec.settles d result) lockKey lockTtl).events.count
        (Event.release h) =
      if h < lockKeyCount lockKey then 1 else 0 := by
  rw [run_settles_eq cfg env lockKey lockTtl d result h1 h2 h3]
  dsimp only
  rw [List.count_append, List.count_append, List.count_append, List.count_append]
  have c1 : (acquireEvents lockKey).count (Event.release h) = 0 := by
    rw [List.count_eq_zero]
    intro hmem
    rcases mem_acquireEvents hmem with ⟨s, hs⟩
    exact Event.noConfusion hs
  have c2 : ((simOf cfg env lockKey lockTtl d).events).count (Event.release h) = 0 := by
    rw [List.count_eq_zero]
    intro hmem
    rcases mem_runTicks env (jsValToString lockKey) (lockKeyCount lockKey)
        cfg.maxExtendLockCount lockTtl d 0 (Event.release h) hmem with hc | ⟨i, _, hc⟩ <;>
      exact Event.noConfusion hc
  rw [c1, c2, count_release_range]
  simp [List.count_cons, List.count_nil]

/-- C4 witness: the theorem applied to a successful single-key invocation and
handle 0. -/
theorem release_exactly_once_witness :
    (¬ 1000 < cfgDefault.minimumTtl ∧
      (normalizeLockKey (JsVal.str "lock-key")).all isString = true ∧
      firstFailure envAllOk.lockResult (lockKeyCount (JsVal.str "lock-key")) = none) ∧
    (run cfgDefault envAllOk (TaskSpec.settles 0 (Except.ok ())) (JsVal.str "lock-key")
          1000).events.count (Event.release 0) =
      if 0 < lockKeyCount (JsVal.str "lock-key") then 1 else 0 :=
  ⟨⟨by decide, by decide, rfl⟩,
    release_exactly_once cfgDefault envAllOk (JsVal.str "lock-key") 1000 0
      (Except.ok ()) 0 (by decide) (by decide) rfl⟩

/-- C5: for every invocation that arms the extension scheduler (the task
started as a promise), the scheduler is disarmed (clearInterval) strictly
before the first release attempt: in the trace, the index of the first disarm
event is smaller than the index of the first release event. -/
theorem disarm_before_first_release {α : Type} (cfg : Config) (env : Env)
    (lockKey : JsVal) (lockTtl d : Nat) (result : Except JsError α)
    (h1 : ¬ lockTtl < cfg.minimumTtl)
    (h2 : (normalizeLockKey lockKey).all isString = true)
    (h3 : firstFailure env.lockResult (lockKeyCount lockKey) = none) :
    (run cfg env (TaskSpec.settles d result) lockKey lockTtl).events.findIdx isDisarm <
      (run cfg env (TaskSpec.settles d result) lockKey lockTtl).events.findIdx
        isRelease := by
  rw [run_settles_eq cfg env lockKey lockTtl d result h1 h2 h3]
  dsimp only
  set pre := acquireEvents lockKey ++
    [Event.invokeTask, Event.arm ((lockTtl : Int) - (cfg.extendLockBufferOffset : Int))] ++
    (simOf cfg env lockKey lockTtl d).events with hpre
  have hassoc : pre ++ [Event.disarm] ++ releaseEvents (lockKeyCount lockKey) =
      pre ++ (Event.disarm :: releaseEvents (lockKeyCount lockKey)) := by
    rw [List.append_assoc]
    rfl
  rw [hassoc]
  have hprenone : ∀ e ∈ pre, isDisarm e = false ∧ isRelease e = false := by
    intro e he
    rw [hpre] at he
    rcases List.mem_append.mp he with he | he
    · rcases List.mem_append.mp he with he | he
      · rcases mem_acquireEvents he with ⟨s, rfl⟩
        exact ⟨rfl, rfl⟩
      · simp at he
        rcases he with rfl | rfl <;> exact ⟨rfl, rfl⟩
    · rcases mem_runTicks env (jsValToString lockKey) (lockKeyCount lockKey)
          cfg.maxExtendLockCount lockTtl d 0 e he with hc | ⟨i, _, hc⟩ <;>
        (subst hc; exact ⟨rfl, rfl⟩)
  rw [findIdx_append_of_none isDisarm pre _ (fun e he => (hprenone e he).1)]
  rw [findIdx_append_of_none isRelease pre _ (fun e he => (hprenone e he).2)]
  have hd : List.findIdx isDisarm (Event.disarm :: releaseEvents (lockKeyCount lockKey)) =
      0 := by
    rw [List.findIdx_cons]
    rfl
  have hr : 0 < List.findIdx isRelease
      (Event.disarm :: releaseEvents (lockKeyCount lockKey)) := by
    rw [List.findIdx_cons]
    simp [isRelease]
  omega

/-- C5 witness: the theorem applied to a successful single-key invocation. -/
theorem disarm_before_first_release_witness :
    (¬ 1000 < cfgDefault.minimumTtl ∧
      (normalizeLockKey (JsVal.str "lock-key")).all isString = true ∧
      firstFailure envAllOk.lockResult (lockKeyCount (JsVal.str "lock-key")) = none) ∧
    (run cfgDefault envAllOk (TaskSpec.settles 0 (Except.ok ())) (JsVal.str "lock-key")
          1000).events.findIdx isDisarm <
      (run cfgDefault envAllOk (TaskSpec.settles 0 (Except.ok ())) (JsVal.str "lock-key")
          1000).events.findIdx isRelease :=
  ⟨⟨by decide, by decide, rfl⟩,
    disarm_before_first_release cfgDefault envAllOk (JsVal.str "lock-key") 1000 0
      (Except.ok ()) (by decide) (by decide) rfl⟩

/-- C2: the extension cap applies to tick attempts: each tick increments the
counter first, and the first tick whose incremented count exceeds
maxExtendLockCount requests cancellation and issues no extend call, so when
the task outlives the cap and no extension fails, the trace shows exactly
maxExtendLockCount extension rounds (one extend call per handle per round)
followed by the cancellation tick, and the stored cancellation message
records the counter value maxExtendLockCount + 1. -/
theorem extension_cap_semantics {α : Type} (cfg : Config) (env : Env) (lockKey : JsVal)
    (lockTtl d : Nat) (result : Except JsError α)
    (h1 : ¬ lockTtl < cfg.minimumTtl)
    (h2 : (normalizeLockKey lockKey).all isString = true)
    (h3 : firstFailure env.lockResult (lockKeyCount lockKey) = none)
    (h4 : cfg.maxExtendLockCount < d)
    (h5 : ((List.range cfg.maxExtendLockCount).all fun t =>
        (firstFailure (env.extendResult (t + 1)) (lockKeyCount lockKey)).isNone) = true) :
    (run cfg env (TaskSpec.settles d result) lockKey lockTtl).events =
      acquireEvents lockKey ++
        [Event.invokeTask,
          Event.arm ((lockTtl : Int) - (cfg.extendLockBufferOffset : Int))] ++
        extendRounds (lockKeyCount lockKey) lockTtl cfg.maxExtendLockCount ++
        [Event.cancelTask] ++ [Event.disarm] ++ releaseEvents (lockKeyCount lockKey) ∧
    (simOf cfg env lockKey lockTtl d).extState =
      .capMsg (capMessage (jsValToString lockKey) cfg.maxExtendLockCount
        (cfg.maxExtendLockCount + 1)) := by
  have hext : ∀ t, 0 < t → t ≤ cfg.maxExtendLockCount →
      firstFailure (env.extendResult t) (lockKeyCount lockKey) = none := by
    intro t ht1 ht2
    have hmem : t - 1 ∈ List.range cfg.maxExtendLockCount := List.mem_range.mpr (by omega)
    have := List.all_eq_true.mp h5 (t - 1) hmem
    have ht : t - 1 + 1 = t := by omega
    rw [ht] at this
    exact Option.isNone_iff_eq_none.mp this
  have hsim : simOf cfg env lockKey lockTtl d =
      ⟨extendRounds (lockKeyCount lockKey) lockTtl cfg.maxExtendLockCount ++
          [Event.cancelTask], true,
        .capMsg (capMessage (jsValToString lockKey) cfg.maxExtendLockCount
          (cfg.maxExtendLockCount + 1))⟩ := by
    unfold simOf
    rw [runTicks_cap env (jsValToString lockKey) (lockKeyCount lockKey)
        cfg.maxExtendLockCount lockTtl d 0 (Nat.zero_le _) (by omega)
        (fun t ht1 ht2 => hext t ht1 ht2)]
    rw [Nat.sub_zero]
  constructor
  · rw [run_settles_eq cfg env lockKey lockTtl d result h1 h2 h3]
    dsimp only
    rw [hsim]
    dsimp only
    simp only [List.append_assoc, List.cons_append, List.nil_append]
  · rw [hsim]

/-- C2 witness: with a cap of 2 and a task that outlives three ticks, the
trace shows two extension rounds, then the cancellation tick. -/
theorem extension_cap_semantics_witness :
    (¬ 1000 < cfgCap2.minimumTtl ∧
      (normalizeLockKey (JsVal.str "k")).all isString = true ∧
      firstFailure envAllOk.lockResult (lockKeyCount (JsVal.str "k")) = none ∧
      cfgCap2.maxExtendLockCount < 3 ∧
      ((List.range cfgCap2.maxExtendLockCount).all fun t =>
        (firstFailure (envAllOk.extendResult (t + 1))
          (lockKeyCount (JsVal.str "k"))).isNone) = true) ∧
    ((run cfgCap2 envAllOk (TaskSpec.settles 3 (Except.ok ())) (JsVal.str "k")
          1000).events =
      acquireEvents (JsVal.str "k") ++
        [Event.invokeTask,
          Event.arm ((1000 : Int) - (cfgCap2.extendLockBufferOffset : Int))] ++
        extendRounds (lockKeyCount (JsVal.str "k")) 1000 cfgCap2.maxExtendLockCount ++
        [Event.cancelTask] ++ [Event.disarm] ++
        releaseEvents (lockKeyCount (JsVal.str "k")) ∧
    (simOf cfgCap2 envAllOk (JsVal.str "k") 1000 3).extState =
      .capMsg (capMessage (jsValToString (JsVal.str "k")) cfgCap2.maxExtendLockCount
        (cfgCap2.maxExtendLockCount + 1))) :=
  ⟨⟨by decide, by decide, rfl, by decide, by decide⟩,
    extension_cap_semantics cfgCap2 envAllOk (JsVal.str "k") 1000 3 (Except.ok ())
      (by decide) (by decide) rfl (by decide) (by decide)⟩

/-- C1 counterexample: an invocation whose task fails with its own error and
whose release also fails reports UnlockError, not the task's error — the
rejection thrown inside the finally handler replaces the task's rejection, so
UnlockError is reported even though a task error exists, contradicting the
claimed priority. -/
theorem unlockError_shadows_taskError :
    (run cfgDefault envUnlockFails (TaskSpec.settles 0 (Except.error taskErrSample) : TaskSpec Unit)
        (JsVal.str "lock-key") 1000).outcome =
      Outcome.unlockError
        ⟨unlockMessage "lock-key" 1000 unlockErrSample, none, "unlock-stack"⟩ ∧
    (run cfgDefault envUnlockFails (TaskSpec.settles 0 (Except.error taskErrSample) : TaskSpec Unit)
        (JsVal.str "lock-key") 1000).outcome ≠
      Outcome.taskError taskErrSample := by
  exact ⟨rfl, by decide⟩

/-- C1 amended: the code's actual outcome priority for an invocation that
reaches the release phase is: a release failure is reported as UnlockError
regardless of any task error or scheduler cancellation; when every release
succeeds, a scheduler cancellation is reported as ExtendLockError; and only
when the release succeeded and no cancellation occurred is the task's own
error (or value) reported unchanged. -/
theorem run_outcome_priority {α : Type} (cfg : Config) (env : Env) (lockKey : JsVal)
    (lockTtl d : Nat) (result : Except JsError α) (u te : JsError) (v : α)
    (h1 : ¬ lockTtl < cfg.minimumTtl)
    (h2 : (normalizeLockKey lockKey).all isString = true)
    (h3 : firstFailure env.lockResult (lockKeyCount lockKey) = none) :
    (firstFailure env.unlockResult (lockKeyCount lockKey) = some u →
      (run cfg env (TaskSpec.settles d result) lockKey lockTtl).outcome =
        .unlockError ⟨unlockMessage (jsValToString lockKey) lockTtl u, none, u.stack⟩) ∧
    (firstFailure env.unlockResult (lockKeyCount lockKey) = none →
      (simOf cfg env lockKey lockTtl d).cancelled = true →
      (run cfg env (TaskSpec.settles d result) lockKey lockTtl).outcome =
        .extendLockError
          ⟨extMessage (simOf cfg env lockKey lockTtl d).extState, none,
            extStack (simOf cfg env lockKey lockTtl d).extState⟩) ∧
    (firstFailure env.unlockResult (lockKeyCount lockKey) = none →
      (simOf cfg env lockKey lockTtl d).cancelled = false → result = .error te →
      (run cfg env (TaskSpec.settles d result) lockKey lockTtl).outcome =
        .taskError te) ∧
    (firstFailure env.unlockResult (lockKeyCount lockKey) = none →
      (simOf cfg env lockKey lockTtl d).cancelled = false → result = .ok v →
      (run cfg env (TaskSpec.settles d result) lockKey lockTtl).outcome = .ok v) := by
  rw [run_settles_eq cfg env lockKey lockTtl d result h1 h2 h3]
  dsimp only
  refine ⟨?_, ?_, ?_, ?_⟩
  · intro h4
    unfold classify
    rw [h4]
  · intro h4 hc
    unfold classify
    rw [h4, hc]
    simp
  · intro h4 hc hr
    unfold classify
    rw [h4, hc, hr]
    simp
  · intro h4 hc hr
    unfold classify
    rw [h4, hc, hr]
    simp

/-- C1 witness: the priority theorem applied to the invocation whose release
fails while the task errors: the first clause fires and yields UnlockError. -/
theorem run_outcome_priority_witness :
    (¬ 1000 < cfgDefault.minimumTtl ∧
      (normalizeLockKey (JsVal.str "lock-key")).all isString = true ∧
      firstFailure envUnlockFails.lockResult (lockKeyCount (JsVal.str "lock-key")) =
        none) ∧
    ((firstFailure envUnlockFails.unlockResult (lockKeyCount (JsVal.str "lock-key")) =
        some unlockErrSample →
      (run cfgDefault envUnlockFails
          (TaskSpec.settles 0 (Except.error taskErrSample) : TaskSpec Unit) (JsVal.str "lock-key")
          1000).outcome =
        .unlockError
          ⟨unlockMessage (jsValToString (JsVal.str "lock-key")) 1000 unlockErrSample,
            none, unlockErrSample.stack⟩) ∧
    (firstFailure envUnlockFails.unlockResult (lockKeyCount (JsVal.str "lock-key")) =
        none →
      (simOf cfgDefault envUnlockFails (JsVal.str "lock-key") 1000 0).cancelled = true →
      (run cfgDefault envUnlockFails
          (TaskSpec.settles 0 (Except.error taskErrSample) : TaskSpec Unit) (JsVal.str "lock-key")
          1000).outcome =
        .extendLockError
          ⟨extMessage (simOf cfgDefault envUnlockFails (JsVal.str "lock-key") 1000
              0).extState, none,
            extStack (simOf cfgDefault envUnlockFails (JsVal.str "lock-key") 1000
              0).extState⟩) ∧
    (firstFailure envUnlockFails.unlockResult (lockKeyCount (JsVal.str "lock-key")) =
        none →
      (simOf cfgDefault envUnlockFails (JsVal.str "lock-key") 1000 0).cancelled = false →
      (Except.error taskErrSample : Except JsError Unit) = .error taskErrSample →
      (run cfgDefault envUnlockFails
          (TaskSpec.settles 0 (Except.error taskErrSample) : TaskSpec Unit) (JsVal.str "lock-key")
          1000).outcome = .taskError taskErrSample) ∧
    (firstFailure envUnlockFails.unlockResult (lockKeyCount (JsVal.str "lock-key")) =
        none →
      (simOf cfgDefault envUnlockFails (JsVal.str "lock-key") 1000 0).cancelled = false →
      (Except.error taskErrSample : Except JsError Unit) = .ok () →
      (run cfgDefault envUnlockFails
          (TaskSpec.settles 0 (Except.error taskErrSample) : TaskSpec Unit) (JsVal.str "lock-key")
          1000).outcome = .ok ())) :=
  ⟨⟨by decide, by decide, rfl⟩,
    run_outcome_priority cfgDefault envUnlockFails (JsVal.str "lock-key") 1000 0
      (Except.error taskErrSample) unlockErrSample taskErrSample () (by decide)
      (by decide) rfl⟩

/-- C3 counterexample: two keys where the first acquisition succeeds and the
second fails: run fails with the LockError pass-through and never invokes the
task, but no release of any kind is attempted, so the successfully-acquired
first lock of the invocation remains held at return. -/
theorem partial_acquisition_remains_held :
    run cfgDefault envSecondLockFails (TaskSpec.settles 0 (Except.ok ()))
        (JsVal.arr [JsVal.str "a", JsVal.str "b"]) 1000 =
      ⟨.lockError lockErrSample, [Event.acquire "a", Event.acquire "b"]⟩ ∧
    envSecondLockFails.lockResult 0 = .ok () ∧
    (run cfgDefault envSecondLockFails (TaskSpec.settles 0 (Except.ok ()))
        (JsVal.arr [JsVal.str "a", JsVal.str "b"]) 1000).events.any isRelease = false := by
  exact ⟨rfl, rfl, rfl⟩

/-- C3 amended: when acquiring any one of the lock keys fails, run fails with
that LockError passed through unchanged and the task is never invoked, but the
core attempts no release at all (the trace consists of the acquire calls
only), so successfully-acquired sibling locks of the same invocation remain
held until their TTL expires. -/
theorem acquisition_failure_behaviour {α : Type} (cfg : Config) (env : Env)
    (task : TaskSpec α) (lockKey : JsVal) (lockTtl : Nat) (e : JsError)
    (h1 : ¬ lockTtl < cfg.minimumTtl)
    (h2 : (normalizeLockKey lockKey).all isString = true)
    (h3 : firstFailure env.lockResult (lockKeyCount lockKey) = some e) :
    run cfg env task lockKey lockTtl = ⟨.lockError e, acquireEvents lockKey⟩ ∧
    (run cfg env task lockKey lockTtl).events.any isRelease = false ∧
    Event.invokeTask ∉ (run cfg env task lockKey lockTtl).events := by
  have heq := run_lockfail cfg env task lockKey lockTtl e h1 h2 h3
  refine ⟨heq, ?_, ?_⟩
  · rw [heq]
    dsimp only
    rw [List.any_eq_false]
    intro x hx
    rcases mem_acquireEvents hx with ⟨s, rfl⟩
    simp [isRelease]
  · rw [heq]
    dsimp only
    intro hmem
    rcases mem_acquireEvents hmem with ⟨s, hs⟩
    exact Event.noConfusion hs

/-- C3 witness: the amended theorem applied to the two-key invocation whose
second acquisition fails. -/
theorem acquisition_failure_behaviour_witness :
    (¬ 1000 < cfgDefault.minimumTtl ∧
      (normalizeLockKey (JsVal.arr [JsVal.str "a", JsVal.str "b"])).all isString = true ∧
      firstFailure envSecondLockFails.lockResult
        (lockKeyCount (JsVal.arr [JsVal.str "a", JsVal.str "b"])) = some lockErrSample) ∧
    (run cfgDefault envSecondLockFails (TaskSpec.settles 0 (Except.ok ()))
        (JsVal.arr [JsVal.str "a", JsVal.str "b"]) 1000 =
      ⟨.lockError lockErrSample, acquireEvents (JsVal.arr [JsVal.str "a", JsVal.str "b"])⟩ ∧
    (run cfgDefault envSecondLockFails (TaskSpec.settles 0 (Except.ok ()))
        (JsVal.arr [JsVal.str "a", JsVal.str "b"]) 1000).events.any isRelease = false ∧
    Event.invokeTask ∉ (run cfgDefault envSecondLockFails (TaskSpec.settles 0 (Except.ok ()))
        (JsVal.arr [JsVal.str "a", JsVal.str "b"]) 1000).events) :=
  ⟨⟨by decide, by decide, rfl⟩,
    acquisition_failure_behaviour cfgDefault envSecondLockFails
      (TaskSpec.settles 0 (Except.ok ())) (JsVal.arr [JsVal.str "a", JsVal.str "b"])
      1000 lockErrSample (by decide) (by decide) rfl⟩

/-- C7 counterexample: a cap-exceeded invocation terminates with an
ExtendLockError whose extendLockLimit field is undefined (none) — the source
calls the two-parameter constructor with the message argument only — so the
error does not carry the numeric cap (here 2) in that field. -/
theorem extendLockLimit_not_carried :
    (run cfgCap2 envAllOk (TaskSpec.settles 3 (Except.ok ())) (JsVal.str "k")
        1000).outcome =
      Outcome.extendLockError ⟨some (capMessage "k" 2 3), none, capturedStack⟩ ∧
    (none : Option Nat) ≠ some cfgCap2.maxExtendLockCount := by
  exact ⟨rfl, by decide⟩

/-- C7 amended: every invocation that terminates with an ExtendLockError
reports it with the extendLockLimit field unset (none): the constructor is
invoked with the message alone, and the numeric cap appears only inside the
message text of the cap-exceeded case. -/
theorem extendLockError_limit_unset {α : Type} (cfg : Config) (env : Env)
    (task : TaskSpec α) (lockKey : JsVal) (lockTtl : Nat) (x : ExtendLockErrorVal)
    (hout : (run cfg env task lockKey lockTtl).outcome = .extendLockError x) :
    x.extendLockLimit = none := by
  by_cases h1 : lockTtl < cfg.minimumTtl
  · rw [run_ttl_invalid cfg env task lockKey lockTtl h1] at hout
    exact absurd hout (by simp)
  · cases h2 : (normalizeLockKey lockKey).all isString with
    | false =>
      rw [run_badkey cfg env task lockKey lockTtl h1 h2] at hout
      exact absurd hout (by simp)
    | true =>
      cases h3 : firstFailure env.lockResult (lockKeyCount lockKey) with
      | some e =>
        rw [run_lockfail cfg env task lockKey lockTtl e h1 h2 h3] at hout
        exact absurd hout (by simp)
      | none =>
        cases task with
        | syncThrow e =>
          rw [run_syncThrow_eq cfg env e lockKey lockTtl h1 h2 h3] at hout
          exact absurd hout (by simp)
        | settles d result =>
          rw [run_settles_eq cfg env lockKey lockTtl d result h1 h2 h3] at hout
          dsimp only at hout
          unfold classify at hout
          cases h4 : firstFailure env.unlockResult (lockKeyCount lockKey) with
          | some e =>
            rw [h4] at hout
            exact absurd hout (by simp)
          | none =>
            rw [h4] at hout
            cases hc : (simOf cfg env lockKey lockTtl d).cancelled with
            | true =>
              rw [hc] at hout
              simp only [if_true] at hout
              have := (Outcome.extendLockError.injEq _ _).mp hout.symm
              rw [this]
            | false =>
              rw [hc] at hout
              simp only [if_false] at hout
              cases result with
              | ok v => exact absurd hout (by simp)
              | error e => exact absurd hout (by simp)

/-- C7 witness: the amended theorem applied to the concrete cap-exceeded
invocation with cap 2. -/
theorem extendLockError_limit_unset_witness :
    (run cfgCap2 envAllOk (TaskSpec.settles 3 (Except.ok ())) (JsVal.str "k")
        1000).outcome =
      Outcome.extendLockError ⟨some (capMessage "k" 2 3), none, capturedStack⟩ ∧
    (⟨some (capMessage "k" 2 3), none, capturedStack⟩ :
        ExtendLockErrorVal).extendLockLimit = none :=
  ⟨rfl,
    extendLockError_limit_unset cfgCap2 envAllOk (TaskSpec.settles 3 (Except.ok ()))
      (JsVal.str "k") 1000 ⟨some (capMessage "k" 2 3), none, capturedStack⟩ rfl⟩

/-- C8 counterexample: an invocation whose release fails terminates with an
UnlockError whose extra field (the structured-cause slot of the constructor)
is undefined (none) rather than carrying the release failure as a structured
cause. -/
theorem unlockError_cause_not_structured :
    (run cfgDefault envUnlockFails (TaskSpec.settles 0 (Except.ok ()))
        (JsVal.str "k") 1000).outcome =
      Outcome.unlockError
        ⟨unlockMessage "k" 1000 unlockErrSample, none, "unlock-stack"⟩ ∧
    (none : Option JsError) ≠ some unlockErrSample := by
  exact ⟨rfl, by decide⟩

/-- C8 amended: the UnlockError carries no structured cause: its extra field
is unset; the underlying release failure is embedded textually in the message
(which also carries the note that the lock will expire via its TTL) and its
stack is copied onto the error. -/
theorem unlockError_textual_cause {α : Type} (cfg : Config) (env : Env)
    (lockKey : JsVal) (lockTtl d : Nat) (result : Except JsError α) (e : JsError)
    (h1 : ¬ lockTtl < cfg.minimumTtl)
    (h2 : (normalizeLockKey lockKey).all isString = true)
    (h3 : firstFailure env.lockResult (lockKeyCount lockKey) = none)
    (h4 : firstFailure env.unlockResult (lockKeyCount lockKey) = some e) :
    (run cfg env (TaskSpec.settles d result) lockKey lockTtl).outcome =
      .unlockError ⟨unlockMessage (jsValToString lockKey) lockTtl e, none, e.stack⟩ ∧
    unlockMessage (jsValToString lockKey) lockTtl e =
      "[Mutex " ++ jsValToString lockKey ++
        "] Error when unlocking resource, no worries we" ++ apos ++ "ve set a TTL " ++
        toString lockTtl ++ " ms, it" ++ apos ++ "ll unlock automatically. Error " ++
        errToString e := by
  constructor
  · rw [run_settles_eq cfg env lockKey lockTtl d result h1 h2 h3]
    dsimp only
    unfold classify
    rw [h4]
  · unfold unlockMessage
    simp [String.append_assoc]

/-- C8 witness: the amended theorem applied to the concrete invocation whose
single release fails. -/
theorem unlockError_textual_cause_witness :
    (¬ 1000 < cfgDefault.minimumTtl ∧
      (normalizeLockKey (JsVal.str "k")).all isString = true ∧
      firstFailure envUnlockFails.lockResult (lockKeyCount (JsVal.str "k")) = none ∧
      firstFailure envUnlockFails.unlockResult (lockKeyCount (JsVal.str "k")) =
        some unlockErrSample) ∧
    ((run cfgDefault envUnlockFails (TaskSpec.settles 0 (Except.ok ()))
          (JsVal.str "k") 1000).outcome =
        .unlockError
          ⟨unlockMessage (jsValToString (JsVal.str "k")) 1000 unlockErrSample, none,
            unlockErrSample.stack⟩ ∧
      unlockMessage (jsValToString (JsVal.str "k")) 1000 unlockErrSample =
        "[Mutex " ++ jsValToString (JsVal.str "k") ++
          "] Error when unlocking resource, no worries we" ++ apos ++ "ve set a TTL " ++
          toString (1000 : Nat) ++ " ms, it" ++ apos ++
          "ll unlock automatically. Error " ++ errToString unlockErrSample) :=
  ⟨⟨by decide, by decide, rfl, rfl⟩,
    unlockError_textual_cause cfgDefault envUnlockFails (JsVal.str "k") 1000 0
      (Except.ok ()) unlockErrSample (by decide) (by decide) rfl rfl⟩

end ExclusionMutuelle
